import Mathlib

/-!
Shallow embedding of the convolutional autoencoder repository
(src/ae.py and src/train.py) and proofs about its claims.

The Keras layer graph is modelled as a list of layer descriptors together
with explicit shape propagation.  Python list indexing, which raises
IndexError when out of range, is modelled with Except Nat, the error
payload being the layer index at which construction failed.  Keras shape
semantics for padding same: a strided convolution maps a spatial dimension
d to ceil(d / s); a transposed strided convolution maps d to d * s.
-/

set_option autoImplicit false

/-- Spatial-plus-channel shape of a rank-3 feature map: (height, width, channels). -/
abbrev Tri := Nat × Nat × Nat

/-- The five hyperparameters taken by Autoencoder.__init__ in src/ae.py. -/
structure HP where
  input_shape : Tri
  conv_filters : List Nat
  conv_kernels : List Nat
  conv_strides : List Nat
  latent_space_dim : Nat
deriving DecidableEq, Repr

/-- Descriptors for the Keras layers used by src/ae.py. -/
inductive Layer where
  | conv2d (filters kernel stride : Nat) (nm : String)
  | relu (nm : String)
  | batchNorm (nm : String)
  | flatten
  | dense (units : Nat) (nm : String)
  | reshape (target : Tri)
  | conv2dT (filters kernel stride : Nat) (nm : String)
  | activation (kind : String) (nm : String)
deriving DecidableEq, Repr

/-- Output spatial dimension of a stride-s convolution with padding same:
ceil of d divided by s, written with natural subtraction. -/
def convOutDim (d s : Nat) : Nat := (d + s - 1) / s

/-- Shape transformation of one encoder convolution block (padding same). -/
def convStep (sh : Tri) (f s : Nat) : Tri :=
  (convOutDim sh.1 s, convOutDim sh.2.1 s, f)

/-- Shape transformation of one transposed convolution (padding same). -/
def convTStep (sh : Tri) (f s : Nat) : Tri :=
  (sh.1 * s, sh.2.1 * s, f)

/-- Python list indexing: xs[i] raises IndexError when i is out of range;
the error payload records the index. -/
def pyGet (xs : List Nat) (i : Nat) : Except Nat Nat :=
  match xs.get? i with
  | some v => Except.ok v
  | none => Except.error i

/-- One encoder block, mirroring Autoencoder._add_conv_layer:
conv2d + ReLU + batch normalization, reading the three hyperparameter
sequences at layer_index. -/
def addConvLayer (hp : HP) (i : Nat) (acc : List Layer × Tri) : Except Nat (List Layer × Tri) :=
  match pyGet hp.conv_filters i with
  | Except.error j => Except.error j
  | Except.ok f =>
    match pyGet hp.conv_kernels i with
    | Except.error j => Except.error j
    | Except.ok k =>
      match pyGet hp.conv_strides i with
      | Except.error j => Except.error j
      | Except.ok s =>
        Except.ok
          (acc.1 ++
            [Layer.conv2d f k s ("encoder_conv_layer_" ++ toString (i + 1)),
             Layer.relu ("encoder_relu_" ++ toString (i + 1)),
             Layer.batchNorm ("encoder_bn_" ++ toString (i + 1))],
           convStep acc.2 f s)

/-- Folding the encoder blocks over a list of layer indices,
mirroring the loop in Autoencoder._add_conv_layers. -/
def addConvLayersAux (hp : HP) : List Nat → List Layer × Tri → Except Nat (List Layer × Tri)
  | [], acc => Except.ok acc
  | i :: rest, acc =>
    match addConvLayer hp i acc with
    | Except.error j => Except.error j
    | Except.ok acc2 => addConvLayersAux hp rest acc2

/-- Result of Autoencoder._build_encoder: the layer stack, the feature-map
shape cached just before flattening, and the bottleneck dimensionality. -/
structure EncoderB where
  layers : List Layer
  shapeBB : Tri
  outDim : Nat
deriving DecidableEq, Repr

/-- Element product of a shape, mirroring np.prod in _add_dense_layer. -/
def prodT (t : Tri) : Nat := t.1 * t.2.1 * t.2.2

/-- Autoencoder._build_encoder: the convolution blocks over range(num layers),
then _add_bottleneck records K.int_shape just before Flatten and applies a
Dense layer of width latent_space_dim. -/
def buildEncoder (hp : HP) : Except Nat EncoderB :=
  match addConvLayersAux hp (List.range hp.conv_filters.length) ([], hp.input_shape) with
  | Except.error j => Except.error j
  | Except.ok r =>
    Except.ok
      { layers := r.1 ++ [Layer.flatten, Layer.dense hp.latent_space_dim ("encoder_output")],
        shapeBB := r.2,
        outDim := hp.latent_space_dim }

/-- One decoder block, mirroring Autoencoder._add_conv_transpose_layer:
transposed convolution + ReLU + batch normalization at layer_index, with
layer_num given by num layers minus layer_index. -/
def addConvTransposeLayer (hp : HP) (i : Nat) (acc : List Layer × Tri) :
    Except Nat (List Layer × Tri) :=
  match pyGet hp.conv_filters i with
  | Except.error j => Except.error j
  | Except.ok f =>
    match pyGet hp.conv_kernels i with
    | Except.error j => Except.error j
    | Except.ok k =>
      match pyGet hp.conv_strides i with
      | Except.error j => Except.error j
      | Except.ok s =>
        Except.ok
          (acc.1 ++
            [Layer.conv2dT f k s
               ("dcoder_conv_transpose_layer_" ++ toString (hp.conv_filters.length - i)),
             Layer.relu ("decoder_relu_" ++ toString (hp.conv_filters.length - i)),
             Layer.batchNorm ("decoder_bn_" ++ toString (hp.conv_filters.length - i))],
           convTStep acc.2 f s)

/-- Folding the decoder blocks over a list of layer indices,
mirroring the loop in Autoencoder._add_conv_transpose_layers. -/
def addConvTransposeLayersAux (hp : HP) :
    List Nat → List Layer × Tri → Except Nat (List Layer × Tri)
  | [], acc => Except.ok acc
  | i :: rest, acc =>
    match addConvTransposeLayer hp i acc with
    | Except.error j => Except.error j
    | Except.ok acc2 => addConvTransposeLayersAux hp rest acc2

/-- Autoencoder._add_decoder_output: a transposed convolution with a single
filter using the kernel size and stride at index 0. -/
def addDecoderOutput (hp : HP) (acc : List Layer × Tri) : Except Nat (List Layer × Tri) :=
  match pyGet hp.conv_kernels 0 with
  | Except.error j => Except.error j
  | Except.ok k =>
    match pyGet hp.conv_strides 0 with
    | Except.error j => Except.error j
    | Except.ok s =>
      Except.ok
        (acc.1 ++
          [Layer.conv2dT 1 k s
             ("decoder_conv_transpose_layer_" ++ toString hp.conv_filters.length)],
         convTStep acc.2 1 s)

/-- Result of Autoencoder._build_decoder: the layer stack, the input
dimensionality of the decoder, and the shape of the decoder output. -/
structure DecoderB where
  layers : List Layer
  inDim : Nat
  outShape : Tri
deriving DecidableEq, Repr

/-- Autoencoder._build_decoder: dense layer of width np.prod(shape before
bottleneck), reshape to that shape, the transposed-convolution blocks over
reversed(range(num layers)), the output transposed convolution and a final
sigmoid activation. -/
def buildDecoder (hp : HP) (sh : Tri) : Except Nat DecoderB :=
  match
    addConvTransposeLayersAux hp (List.range hp.conv_filters.length).reverse
      ([Layer.dense (prodT sh) ("decoder_dense"), Layer.reshape sh], sh) with
  | Except.error j => Except.error j
  | Except.ok mid =>
    match addDecoderOutput hp mid with
    | Except.error j => Except.error j
    | Except.ok fin =>
      Except.ok
        { layers := fin.1 ++ [Layer.activation ("sigmoid") ("sigmoid_layer")],
          inDim := hp.latent_space_dim,
          outShape := fin.2 }

/-- Autoencoder._build: encoder first, then decoder fed with the cached
shape before the bottleneck. -/
def build (hp : HP) : Except Nat (EncoderB × DecoderB) :=
  match buildEncoder hp with
  | Except.error j => Except.error j
  | Except.ok e =>
    match buildDecoder hp e.shapeBB with
    | Except.error j => Except.error j
    | Except.ok d => Except.ok (e, d)

/-!
Closed forms for the two construction loops.  These restate the loops of
_add_conv_layers and _add_conv_transpose_layers by primitive recursion on
the number of processed layer indices, to be compared with the builder
functions above; list reads use getD, justified by the bounds hypotheses
of the lemmas connecting them to the fallible builders.
-/

/-- Closed form of one encoder block at a given index. -/
def convBlock (hp : HP) (i : Nat) : List Layer :=
  [Layer.conv2d (hp.conv_filters.getD i 0) (hp.conv_kernels.getD i 0)
     (hp.conv_strides.getD i 0) ("encoder_conv_layer_" ++ toString (i + 1)),
   Layer.relu ("encoder_relu_" ++ toString (i + 1)),
   Layer.batchNorm ("encoder_bn_" ++ toString (i + 1))]

/-- Closed form of the encoder block stack over the first m indices. -/
def encChain (hp : HP) : Nat → List Layer
  | 0 => []
  | m + 1 => encChain hp m ++ convBlock hp m

/-- Closed form of the feature-map shape after the first m encoder blocks. -/
def encShapeN (hp : HP) : Nat → Tri
  | 0 => hp.input_shape
  | m + 1 =>
    convStep (encShapeN hp m) (hp.conv_filters.getD m 0) (hp.conv_strides.getD m 0)

/-- Closed form of one decoder block at a given index. -/
def convTBlock (hp : HP) (i : Nat) : List Layer :=
  [Layer.conv2dT (hp.conv_filters.getD i 0) (hp.conv_kernels.getD i 0)
     (hp.conv_strides.getD i 0)
     ("dcoder_conv_transpose_layer_" ++ toString (hp.conv_filters.length - i)),
   Layer.relu ("decoder_relu_" ++ toString (hp.conv_filters.length - i)),
   Layer.batchNorm ("decoder_bn_" ++ toString (hp.conv_filters.length - i))]

/-- Closed form of the decoder block stack: index m - 1 first, down to 0. -/
def decChain (hp : HP) : Nat → List Layer
  | 0 => []
  | m + 1 => convTBlock hp m ++ decChain hp m

/-- Closed form of the shape after the decoder blocks for indices below m,
applied from the highest index down. -/
def decShapeAcc (hp : HP) : Nat → Tri → Tri
  | 0, sh => sh
  | m + 1, sh =>
    decShapeAcc hp m
      (convTStep sh (hp.conv_filters.getD m 0) (hp.conv_strides.getD m 0))

theorem pyGet_lt {xs : List Nat} {i : Nat} (h : i < xs.length) :
    pyGet xs i = Except.ok (xs.getD i 0) := by
  unfold pyGet
  rw [List.get?_eq_getElem?, List.getElem?_eq_getElem h]
  rw [List.getD_eq_getElem?_getD, List.getElem?_eq_getElem h]
  rfl

theorem pyGet_ge {xs : List Nat} {i : Nat} (h : xs.length ≤ i) :
    pyGet xs i = Except.error i := by
  unfold pyGet
  rw [List.get?_eq_getElem?, List.getElem?_eq_none h]

theorem addConvLayer_ok (hp : HP) (i : Nat) (acc : List Layer × Tri)
    (hf : i < hp.conv_filters.length) (hk : i < hp.conv_kernels.length)
    (hs : i < hp.conv_strides.length) :
    addConvLayer hp i acc =
      Except.ok (acc.1 ++ convBlock hp i,
        convStep acc.2 (hp.conv_filters.getD i 0) (hp.conv_strides.getD i 0)) := by
  simp [addConvLayer, pyGet_lt hf, pyGet_lt hk, pyGet_lt hs, convBlock]

theorem addConvTransposeLayer_ok (hp : HP) (i : Nat) (acc : List Layer × Tri)
    (hf : i < hp.conv_filters.length) (hk : i < hp.conv_kernels.length)
    (hs : i < hp.conv_strides.length) :
    addConvTransposeLayer hp i acc =
      Except.ok (acc.1 ++ convTBlock hp i,
        convTStep acc.2 (hp.conv_filters.getD i 0) (hp.conv_strides.getD i 0)) := by
  simp [addConvTransposeLayer, pyGet_lt hf, pyGet_lt hk, pyGet_lt hs, convTBlock]

theorem addConvLayersAux_append (hp : HP) (l1 l2 : List Nat) (acc : List Layer × Tri) :
    addConvLayersAux hp (l1 ++ l2) acc =
      match addConvLayersAux hp l1 acc with
      | Except.error j => Except.error j
      | Except.ok a => addConvLayersAux hp l2 a := by
  induction l1 generalizing acc with
  | nil => simp [addConvLayersAux]
  | cons i rest ih =>
    simp only [List.cons_append, addConvLayersAux]
    cases addConvLayer hp i acc with
    | error j => rfl
    | ok acc2 => exact ih acc2

theorem encoder_fold_ok (hp : HP) (m : Nat)
    (hf : m ≤ hp.conv_filters.length) (hk : m ≤ hp.conv_kernels.length)
    (hs : m ≤ hp.conv_strides.length) :
    addConvLayersAux hp (List.range m) ([], hp.input_shape) =
      Except.ok (encChain hp m, encShapeN hp m) := by
  induction m with
  | zero => rfl
  | succ m ih =>
    rw [List.range_succ, addConvLayersAux_append]
    rw [ih (Nat.le_of_succ_le hf) (Nat.le_of_succ_le hk) (Nat.le_of_succ_le hs)]
    simp only [addConvLayersAux]
    rw [addConvLayer_ok hp m _ (Nat.lt_of_succ_le hf) (Nat.lt_of_succ_le hk)
      (Nat.lt_of_succ_le hs)]
    rfl

theorem decoder_fold_ok (hp : HP) (m : Nat)
    (hf : m ≤ hp.conv_filters.length) (hk : m ≤ hp.conv_kernels.length)
    (hs : m ≤ hp.conv_strides.length) (ls : List Layer) (sh : Tri) :
    addConvTransposeLayersAux hp (List.range m).reverse (ls, sh) =
      Except.ok (ls ++ decChain hp m, decShapeAcc hp m sh) := by
  induction m generalizing ls sh with
  | zero => simp [addConvTransposeLayersAux, decChain, decShapeAcc]
  | succ m ih =>
    have hrev : (List.range (m + 1)).reverse = m :: (List.range m).reverse := by
      rw [List.range_succ, List.reverse_append]
      rfl
    rw [hrev]
    simp only [addConvTransposeLayersAux]
    rw [addConvTransposeLayer_ok hp m _ (Nat.lt_of_succ_le hf) (Nat.lt_of_succ_le hk)
      (Nat.lt_of_succ_le hs)]
    exact (ih (Nat.le_of_succ_le hf) (Nat.le_of_succ_le hk) (Nat.le_of_succ_le hs) _ _).trans
      (by simp [decChain, decShapeAcc, List.append_assoc])

/-- Closed form of the shape cached before the bottleneck. -/
def shapeBBSpec (hp : HP) : Tri := encShapeN hp hp.conv_filters.length

/-- Closed form of the encoder produced by a successful build. -/
def encSpec (hp : HP) : EncoderB :=
  { layers := encChain hp hp.conv_filters.length ++
      [Layer.flatten, Layer.dense hp.latent_space_dim ("encoder_output")],
    shapeBB := shapeBBSpec hp,
    outDim := hp.latent_space_dim }

/-- Closed form of the final transposed convolution of the decoder. -/
def outConvT (hp : HP) : Layer :=
  Layer.conv2dT 1 (hp.conv_kernels.getD 0 0) (hp.conv_strides.getD 0 0)
    ("decoder_conv_transpose_layer_" ++ toString hp.conv_filters.length)

/-- Closed form of the decoder layer stack produced by a successful build. -/
def decSpecLayers (hp : HP) (sh : Tri) : List Layer :=
  [Layer.dense (prodT sh) ("decoder_dense"), Layer.reshape sh] ++
    decChain hp hp.conv_filters.length ++
    [outConvT hp, Layer.activation ("sigmoid") ("sigmoid_layer")]

/-- Closed form of the decoder produced by a successful build. -/
def decSpec (hp : HP) : DecoderB :=
  { layers := decSpecLayers hp (shapeBBSpec hp),
    inDim := hp.latent_space_dim,
    outShape := convTStep (decShapeAcc hp hp.conv_filters.length (shapeBBSpec hp)) 1
      (hp.conv_strides.getD 0 0) }

theorem addDecoderOutput_ok (hp : HP) (acc : List Layer × Tri)
    (hk0 : 0 < hp.conv_kernels.length) (hs0 : 0 < hp.conv_strides.length) :
    addDecoderOutput hp acc =
      Except.ok (acc.1 ++ [outConvT hp], convTStep acc.2 1 (hp.conv_strides.getD 0 0)) := by
  simp [addDecoderOutput, pyGet_lt hk0, pyGet_lt hs0, outConvT]

theorem buildEncoder_eq (hp : HP)
    (hk : hp.conv_filters.length ≤ hp.conv_kernels.length)
    (hs : hp.conv_filters.length ≤ hp.conv_strides.length) :
    buildEncoder hp = Except.ok (encSpec hp) := by
  have h1 := encoder_fold_ok hp hp.conv_filters.length le_rfl hk hs
  simp [buildEncoder, h1, encSpec, shapeBBSpec]

theorem buildDecoder_eq (hp : HP) (sh : Tri)
    (hk : hp.conv_filters.length ≤ hp.conv_kernels.length)
    (hs : hp.conv_filters.length ≤ hp.conv_strides.length)
    (hk0 : 0 < hp.conv_kernels.length) (hs0 : 0 < hp.conv_strides.length) :
    buildDecoder hp sh =
      Except.ok
        { layers := decSpecLayers hp sh,
          inDim := hp.latent_space_dim,
          outShape := convTStep (decShapeAcc hp hp.conv_filters.length sh) 1
            (hp.conv_strides.getD 0 0) } := by
  have h1 := decoder_fold_ok hp hp.conv_filters.length le_rfl hk hs
    [Layer.dense (prodT sh) ("decoder_dense"), Layer.reshape sh] sh
  have h2 := addDecoderOutput_ok hp
    ([Layer.dense (prodT sh) ("decoder_dense"), Layer.reshape sh] ++
        decChain hp hp.conv_filters.length,
      decShapeAcc hp hp.conv_filters.length sh) hk0 hs0
  simp only [buildDecoder, h1, h2]
  simp [decSpecLayers, List.append_assoc]

theorem build_eq (hp : HP)
    (hk : hp.conv_filters.length ≤ hp.conv_kernels.length)
    (hs : hp.conv_filters.length ≤ hp.conv_strides.length)
    (hk0 : 0 < hp.conv_kernels.length) (hs0 : 0 < hp.conv_strides.length) :
    build hp = Except.ok (encSpec hp, decSpec hp) := by
  have h1 := buildEncoder_eq hp hk hs
  have h2 := buildDecoder_eq hp (shapeBBSpec hp) hk hs hk0 hs0
  simp only [build, h1]
  rw [show (encSpec hp).shapeBB = shapeBBSpec hp from rfl, h2]
  rfl

theorem addConvLayer_err (hp : HP) (acc : List Layer × Tri)
    (hf : Nat.min hp.conv_kernels.length hp.conv_strides.length < hp.conv_filters.length) :
    addConvLayer hp (Nat.min hp.conv_kernels.length hp.conv_strides.length) acc =
      Except.error (Nat.min hp.conv_kernels.length hp.conv_strides.length) := by
  rcases Nat.le_total hp.conv_kernels.length hp.conv_strides.length with hks | hks
  · have hmin : Nat.min hp.conv_kernels.length hp.conv_strides.length =
        hp.conv_kernels.length := Nat.min_eq_left hks
    rw [hmin] at hf ⊢
    simp [addConvLayer, pyGet_lt hf, pyGet_ge (le_refl hp.conv_kernels.length)]
  · have hmin : Nat.min hp.conv_kernels.length hp.conv_strides.length =
        hp.conv_strides.length := Nat.min_eq_right hks
    rw [hmin] at hf ⊢
    by_cases hkx : hp.conv_strides.length < hp.conv_kernels.length
    · simp [addConvLayer, pyGet_lt hf, pyGet_lt hkx,
        pyGet_ge (le_refl hp.conv_strides.length)]
    · have hke : hp.conv_kernels.length ≤ hp.conv_strides.length := by omega
      simp [addConvLayer, pyGet_lt hf, pyGet_ge hke]

theorem encoder_fold_err (hp : HP)
    (hj : Nat.min hp.conv_kernels.length hp.conv_strides.length < hp.conv_filters.length) :
    addConvLayersAux hp (List.range hp.conv_filters.length) ([], hp.input_shape) =
      Except.error (Nat.min hp.conv_kernels.length hp.conv_strides.length) := by
  set j := Nat.min hp.conv_kernels.length hp.conv_strides.length with hjdef
  have hle1 : j ≤ hp.conv_kernels.length := by
    rw [hjdef]; exact Nat.min_le_left _ _
  have hle2 : j ≤ hp.conv_strides.length := by
    rw [hjdef]; exact Nat.min_le_right _ _
  have hsplit : hp.conv_filters.length = (j + 1) + (hp.conv_filters.length - (j + 1)) := by
    omega
  rw [hsplit, List.range_add, addConvLayersAux_append, List.range_succ,
    addConvLayersAux_append]
  have hfold := encoder_fold_ok hp j (by omega) hle1 hle2
  rw [hfold]
  simp only [addConvLayersAux]
  rw [addConvLayer_err hp _ hj]

theorem build_err (hp : HP)
    (hj : Nat.min hp.conv_kernels.length hp.conv_strides.length < hp.conv_filters.length) :
    build hp =
      Except.error (Nat.min hp.conv_kernels.length hp.conv_strides.length) := by
  simp [build, buildEncoder, encoder_fold_err hp hj]

/-- Spatial dimension after a sequence of strided convolutions with padding
same, applied in order. -/
def downDim (d : Nat) : List Nat → Nat
  | [] => d
  | s :: ss => downDim (convOutDim d s) ss

/-- Boolean test that every stride exactly divides the running spatial
dimension, so that ceil division loses nothing. -/
def exactDownB : Nat → List Nat → Bool
  | _, [] => true
  | d, s :: ss => (d % s == 0) && exactDownB (d / s) ss

theorem downDim_append (d : Nat) (l1 l2 : List Nat) :
    downDim d (l1 ++ l2) = downDim (downDim d l1) l2 := by
  induction l1 generalizing d with
  | nil => rfl
  | cons s ss ih => simp [downDim, ih]

theorem encShapeN_spatial (hp : HP) (m : Nat) (hm : m ≤ hp.conv_strides.length) :
    (encShapeN hp m).1 = downDim hp.input_shape.1 (hp.conv_strides.take m) ∧
      (encShapeN hp m).2.1 = downDim hp.input_shape.2.1 (hp.conv_strides.take m) := by
  induction m with
  | zero => simp [encShapeN, downDim]
  | succ m ih =>
    have hlt : m < hp.conv_strides.length := hm
    have hget : hp.conv_strides.getD m 0 = hp.conv_strides[m] := by
      rw [List.getD_eq_getElem?_getD, List.getElem?_eq_getElem hlt]
      rfl
    have htake : hp.conv_strides.take (m + 1) =
        hp.conv_strides.take m ++ [hp.conv_strides[m]] := by
      rw [List.take_succ, List.getElem?_eq_getElem hlt]
      rfl
    obtain ⟨ih1, ih2⟩ := ih (Nat.le_of_succ_le hm)
    constructor
    · rw [htake, downDim_append, ← ih1]
      show convOutDim (encShapeN hp m).1 (hp.conv_strides.getD m 0) =
        downDim (encShapeN hp m).1 [hp.conv_strides[m]]
      rw [hget]
      rfl
    · rw [htake, downDim_append, ← ih2]
      show convOutDim (encShapeN hp m).2.1 (hp.conv_strides.getD m 0) =
        downDim (encShapeN hp m).2.1 [hp.conv_strides[m]]
      rw [hget]
      rfl

theorem decShapeAcc_spatial (hp : HP) (m : Nat) (sh : Tri)
    (hm : m ≤ hp.conv_strides.length) :
    (decShapeAcc hp m sh).1 = sh.1 * (hp.conv_strides.take m).prod ∧
      (decShapeAcc hp m sh).2.1 = sh.2.1 * (hp.conv_strides.take m).prod := by
  induction m generalizing sh with
  | zero => simp [decShapeAcc]
  | succ m ih =>
    have hlt : m < hp.conv_strides.length := hm
    have hget : hp.conv_strides.getD m 0 = hp.conv_strides[m] := by
      rw [List.getD_eq_getElem?_getD, List.getElem?_eq_getElem hlt]
      rfl
    have hprod : (hp.conv_strides.take (m + 1)).prod =
        (hp.conv_strides.take m).prod * hp.conv_strides[m] :=
      List.prod_take_succ _ _ hlt
    obtain ⟨ih1, ih2⟩ := ih (convTStep sh
      (hp.conv_filters.getD m 0) (hp.conv_strides.getD m 0)) (Nat.le_of_succ_le hm)
    constructor
    · calc (decShapeAcc hp (m + 1) sh).1 =
            (sh.1 * hp.conv_strides.getD m 0) * (hp.conv_strides.take m).prod := ih1
        _ = sh.1 * (hp.conv_strides.take (m + 1)).prod := by
            rw [hprod, hget]; ring
    · calc (decShapeAcc hp (m + 1) sh).2.1 =
            (sh.2.1 * hp.conv_strides.getD m 0) * (hp.conv_strides.take m).prod := ih2
        _ = sh.2.1 * (hp.conv_strides.take (m + 1)).prod := by
            rw [hprod, hget]; ring

theorem convOutDim_exact {d s : Nat} (hs : 0 < s) (hdvd : s ∣ d) :
    convOutDim d s = d / s := by
  obtain ⟨q, hq⟩ := hdvd
  have h1 : d + s - 1 = s * q + (s - 1) := by omega
  unfold convOutDim
  rw [h1, Nat.mul_add_div hs, Nat.div_eq_of_lt (by omega), hq,
    Nat.mul_div_cancel_left q hs]
  omega

theorem exact_round (ss : List Nat) (d : Nat) (hpos : ∀ x ∈ ss, 0 < x)
    (hex : exactDownB d ss = true) : downDim d ss * ss.prod = d := by
  induction ss generalizing d with
  | nil => simp [downDim]
  | cons s ss ih =>
    simp only [exactDownB, Bool.and_eq_true, beq_iff_eq] at hex
    obtain ⟨hmod, hex2⟩ := hex
    have hs : 0 < s := hpos s (List.mem_cons_self s ss)
    have hdvd : s ∣ d := Nat.dvd_of_mod_eq_zero hmod
    have hrec := ih (d / s) (fun x hx => hpos x (List.mem_cons_of_mem s hx)) hex2
    calc downDim d (s :: ss) * (s :: ss).prod
        = downDim (d / s) ss * (s * ss.prod) := by
          simp [downDim, convOutDim_exact hs hdvd, List.prod_cons]
      _ = (downDim (d / s) ss * ss.prod) * s := by ring
      _ = (d / s) * s := by rw [hrec]
      _ = d := Nat.div_mul_cancel hdvd

/-- The Autoencoder object as Autoencoder.__init__ leaves it: the five stored
hyperparameters plus the five fields initialised to None and then populated
by _build. -/
structure PyAE where
  input_shape : Tri
  conv_filters : List Nat
  conv_kernels : List Nat
  conv_strides : List Nat
  latent_space_dim : Nat
  encoder : Option EncoderB
  decoder : Option DecoderB
  model : Option (EncoderB × DecoderB)
  shape_before_bottleneck : Option Tri
  model_input : Option Tri
deriving DecidableEq, Repr

/-- Autoencoder.__init__: store the hyperparameters and run _build, which
sets encoder, decoder, model, the cached shape before the bottleneck and the
model input.  A raised IndexError aborts construction. -/
def init (hp : HP) : Except Nat PyAE :=
  match buildEncoder hp with
  | Except.error j => Except.error j
  | Except.ok e =>
    match buildDecoder hp e.shapeBB with
    | Except.error j => Except.error j
    | Except.ok d =>
      Except.ok
        { input_shape := hp.input_shape,
          conv_filters := hp.conv_filters,
          conv_kernels := hp.conv_kernels,
          conv_strides := hp.conv_strides,
          latent_space_dim := hp.latent_space_dim,
          encoder := some e,
          decoder := some d,
          model := some (e, d),
          shape_before_bottleneck := some e.shapeBB,
          model_input := some hp.input_shape }

theorem addConvTransposeLayer_appends (hp : HP) (i : Nat) (acc r : List Layer × Tri)
    (h : addConvTransposeLayer hp i acc = Except.ok r) : ∃ t, r.1 = acc.1 ++ t := by
  unfold addConvTransposeLayer at h
  cases hf : pyGet hp.conv_filters i with
  | error j => rw [hf] at h; cases h
  | ok f =>
    rw [hf] at h
    cases hk : pyGet hp.conv_kernels i with
    | error j => rw [hk] at h; cases h
    | ok k =>
      rw [hk] at h
      cases hs : pyGet hp.conv_strides i with
      | error j => rw [hs] at h; cases h
      | ok s =>
        rw [hs] at h
        cases h
        exact ⟨_, rfl⟩

theorem addConvTransposeLayersAux_appends (hp : HP) (l : List Nat) :
    ∀ (acc r : List Layer × Tri), addConvTransposeLayersAux hp l acc = Except.ok r →
      ∃ t, r.1 = acc.1 ++ t := by
  induction l with
  | nil =>
    intro acc r h
    simp only [addConvTransposeLayersAux] at h
    cases h
    exact ⟨[], by simp⟩
  | cons i rest ih =>
    intro acc r h
    simp only [addConvTransposeLayersAux] at h
    cases hstep : addConvTransposeLayer hp i acc with
    | error j => rw [hstep] at h; cases h
    | ok acc2 =>
      rw [hstep] at h
      obtain ⟨t1, ht1⟩ := addConvTransposeLayer_appends hp i acc acc2 hstep
      obtain ⟨t2, ht2⟩ := ih acc2 r h
      exact ⟨t1 ++ t2, by rw [ht2, ht1, List.append_assoc]⟩

/-- Whether a layer descriptor is a transposed convolution. -/
def isConvT : Layer → Bool
  | Layer.conv2dT _ _ _ _ => true
  | _ => false

/-- Product of the strides of all transposed convolutions in a layer stack:
the total spatial upsampling factor under padding same. -/
def convTStrideProd : List Layer → Nat
  | [] => 1
  | Layer.conv2dT _ _ s _ :: rest => s * convTStrideProd rest
  | Layer.conv2d _ _ _ _ :: rest => convTStrideProd rest
  | Layer.relu _ :: rest => convTStrideProd rest
  | Layer.batchNorm _ :: rest => convTStrideProd rest
  | Layer.flatten :: rest => convTStrideProd rest
  | Layer.dense _ _ :: rest => convTStrideProd rest
  | Layer.reshape _ :: rest => convTStrideProd rest
  | Layer.activation _ _ :: rest => convTStrideProd rest

/-- Product of the strides of all forward convolutions in a layer stack:
the declared spatial downsampling factor under padding same. -/
def convStrideProd : List Layer → Nat
  | [] => 1
  | Layer.conv2d _ _ s _ :: rest => s * convStrideProd rest
  | Layer.conv2dT _ _ _ _ :: rest => convStrideProd rest
  | Layer.relu _ :: rest => convStrideProd rest
  | Layer.batchNorm _ :: rest => convStrideProd rest
  | Layer.flatten :: rest => convStrideProd rest
  | Layer.dense _ _ :: rest => convStrideProd rest
  | Layer.reshape _ :: rest => convStrideProd rest
  | Layer.activation _ _ :: rest => convStrideProd rest

theorem convTStrideProd_append (l1 l2 : List Layer) :
    convTStrideProd (l1 ++ l2) = convTStrideProd l1 * convTStrideProd l2 := by
  induction l1 with
  | nil => simp [convTStrideProd]
  | cons a rest ih => cases a <;> simp [convTStrideProd, ih, Nat.mul_assoc]

theorem convStrideProd_append (l1 l2 : List Layer) :
    convStrideProd (l1 ++ l2) = convStrideProd l1 * convStrideProd l2 := by
  induction l1 with
  | nil => simp [convStrideProd]
  | cons a rest ih => cases a <;> simp [convStrideProd, ih, Nat.mul_assoc]

theorem decChain_count (hp : HP) (m : Nat) :
    (decChain hp m).countP isConvT = m := by
  induction m with
  | zero => simp [decChain]
  | succ m ih =>
    simp [decChain, List.countP_append, ih, convTBlock, List.countP_cons, isConvT]

theorem decChain_strideProd (hp : HP) (m : Nat) (hm : m ≤ hp.conv_strides.length) :
    convTStrideProd (decChain hp m) = (hp.conv_strides.take m).prod := by
  induction m with
  | zero => simp [decChain, convTStrideProd]
  | succ m ih =>
    have hlt : m < hp.conv_strides.length := hm
    have hget : hp.conv_strides.getD m 0 = hp.conv_strides[m] := by
      rw [List.getD_eq_getElem?_getD, List.getElem?_eq_getElem hlt]
      rfl
    have hprod : (hp.conv_strides.take (m + 1)).prod =
        (hp.conv_strides.take m).prod * hp.conv_strides[m] :=
      List.prod_take_succ _ _ hlt
    calc convTStrideProd (decChain hp (m + 1))
        = convTStrideProd (convTBlock hp m) * convTStrideProd (decChain hp m) := by
          rw [show decChain hp (m + 1) = convTBlock hp m ++ decChain hp m from rfl,
            convTStrideProd_append]
      _ = hp.conv_strides.getD m 0 * (hp.conv_strides.take m).prod := by
          rw [ih (Nat.le_of_succ_le hm)]
          simp [convTBlock, convTStrideProd]
      _ = (hp.conv_strides.take (m + 1)).prod := by rw [hprod, hget]; ring

theorem encChain_strideProd (hp : HP) (m : Nat) (hm : m ≤ hp.conv_strides.length) :
    convStrideProd (encChain hp m) = (hp.conv_strides.take m).prod := by
  induction m with
  | zero => simp [encChain, convStrideProd]
  | succ m ih =>
    have hlt : m < hp.conv_strides.length := hm
    have hget : hp.conv_strides.getD m 0 = hp.conv_strides[m] := by
      rw [List.getD_eq_getElem?_getD, List.getElem?_eq_getElem hlt]
      rfl
    have hprod : (hp.conv_strides.take (m + 1)).prod =
        (hp.conv_strides.take m).prod * hp.conv_strides[m] :=
      List.prod_take_succ _ _ hlt
    calc convStrideProd (encChain hp (m + 1))
        = convStrideProd (encChain hp m) * convStrideProd (convBlock hp m) := by
          rw [show encChain hp (m + 1) = encChain hp m ++ convBlock hp m from rfl,
            convStrideProd_append]
      _ = (hp.conv_strides.take m).prod * hp.conv_strides.getD m 0 := by
          rw [ih (Nat.le_of_succ_le hm)]
          simp [convBlock, convStrideProd]
      _ = (hp.conv_strides.take (m + 1)).prod := by rw [hprod, hget]

/-!
Persistence model.  A pickled parameters file holds a list of tagged values;
the weights file holds the weight blob together with the architecture it was
saved from (Keras load_weights rejects weights whose shapes do not match the
rebuilt architecture).  A file system is a directory list plus an
association list from paths to file contents; a path produced by
os.path.join(folder, name) is modelled as the two-component list.
-/

/-- A value inside the pickled parameters list. -/
inductive PValue where
  | shapeV (t : Tri)
  | natsV (l : List Nat)
  | natV (n : Nat)
deriving DecidableEq, Repr

/-- Autoencoder._save_parameters: the ordered list of exactly five values. -/
def parametersList (hp : HP) : List PValue :=
  [PValue.shapeV hp.input_shape,
   PValue.natsV hp.conv_filters,
   PValue.natsV hp.conv_kernels,
   PValue.natsV hp.conv_strides,
   PValue.natV hp.latent_space_dim]

/-- The call Autoencoder(*parameters) in Autoencoder.load: the five list
elements are passed positionally to the constructor. -/
def ctorFromParams : List PValue → Option HP
  | [PValue.shapeV i, PValue.natsV f, PValue.natsV k, PValue.natsV s, PValue.natV d] =>
    some (HP.mk i f k s d)
  | _ => none

/-- Learned weights: an uninterpreted blob tagged with the architecture whose
save_weights produced it. -/
structure Weights where
  arch : List Layer
  data : List Int
deriving DecidableEq, Repr

/-- Layer stack of the composite model built by _build_autoencoder. -/
def modelArch (b : EncoderB × DecoderB) : List Layer := b.1.layers ++ b.2.layers

/-- A trained Autoencoder as far as persistence is concerned: its
hyperparameters and its current weights. -/
structure AEState where
  hp : HP
  weights : Weights
deriving DecidableEq, Repr

/-- Contents of a file written by the program. -/
inductive FileData where
  | paramsF (p : List PValue)
  | weightsF (w : Weights)
deriving DecidableEq, Repr

/-- os.path.join with one component, modelled structurally. -/
def pathJoin (folder nm : String) : List String := [folder, nm]

/-- Lookup in an association list of files. -/
def getFile : List (List String × FileData) → List String → Option FileData
  | [], _ => none
  | (q, d) :: rest, p => if q = p then some d else getFile rest p

/-- Create or overwrite a file, keeping the position of an existing entry. -/
def setFile : List (List String × FileData) → List String → FileData →
    List (List String × FileData)
  | [], p, d => [(p, d)]
  | (q, e) :: rest, p, d =>
    if q = p then (q, d) :: rest else (q, e) :: setFile rest p d

/-- A file system: existing directories and files. -/
structure FS where
  dirs : List String
  files : List (List String × FileData)
deriving DecidableEq, Repr

/-- Autoencoder._create_folder_if_it_doesnt_exist. -/
def createFolderIfNotExists (folder : String) (fs : FS) : FS :=
  if folder ∈ fs.dirs then fs else FS.mk (fs.dirs ++ [folder]) fs.files

/-- Autoencoder._save_parameters: pickle the five-value list into
folder/parameters.pkl. -/
def saveParameters (hp : HP) (folder : String) (fs : FS) : FS :=
  FS.mk fs.dirs
    (setFile fs.files (pathJoin folder ("parameters.pkl"))
      (FileData.paramsF (parametersList hp)))

/-- Autoencoder._save_weights: write the weights into folder/weights.h5. -/
def saveWeights (w : Weights) (folder : String) (fs : FS) : FS :=
  FS.mk fs.dirs
    (setFile fs.files (pathJoin folder ("weights.h5")) (FileData.weightsF w))

/-- Autoencoder.save: create the folder if needed, then write the parameters
file and the weights file. -/
def save (st : AEState) (folder : String) (fs : FS) : FS :=
  saveWeights st.weights folder (saveParameters st.hp folder
    (createFolderIfNotExists folder fs))

/-- Autoencoder.load: unpickle folder/parameters.pkl, rebuild the
architecture from the five values passed positionally, then load the weights
from folder/weights.h5, which fails on an architecture mismatch. -/
def load (folder : String) (fs : FS) : Option AEState :=
  match getFile fs.files (pathJoin folder ("parameters.pkl")) with
  | some (FileData.paramsF ps) =>
    match ctorFromParams ps with
    | some hp =>
      match build hp with
      | Except.error _ => none
      | Except.ok b =>
        match getFile fs.files (pathJoin folder ("weights.h5")) with
        | some (FileData.weightsF w) =>
          if w.arch = modelArch b then some (AEState.mk hp w) else none
        | _ => none
    | none => none
  | _ => none

theorem getFile_setFile_same (l : List (List String × FileData)) (p : List String)
    (d : FileData) : getFile (setFile l p d) p = some d := by
  induction l with
  | nil => simp [setFile, getFile]
  | cons a rest ih =>
    obtain ⟨q, e⟩ := a
    by_cases hq : q = p
    · simp [setFile, getFile, hq]
    · simp [setFile, getFile, hq, ih]

theorem getFile_setFile_ne (l : List (List String × FileData)) (p q : List String)
    (d : FileData) (h : p ≠ q) : getFile (setFile l p d) q = getFile l q := by
  induction l with
  | nil => simp [setFile, getFile, h]
  | cons a rest ih =>
    obtain ⟨r, e⟩ := a
    by_cases hr : r = p
    · subst hr
      simp [setFile, getFile, h]
    · simp [setFile, getFile, hr, ih]

theorem setFile_already (l : List (List String × FileData)) (p : List String)
    (d : FileData) (h : getFile l p = some d) : setFile l p d = l := by
  induction l with
  | nil => simp [getFile] at h
  | cons a rest ih =>
    obtain ⟨q, e⟩ := a
    by_cases hq : q = p
    · subst hq
      simp [getFile] at h
      simp [setFile, h]
    · simp [getFile, hq] at h
      simp [setFile, hq, ih h]

theorem paths_ne (folder : String) :
    pathJoin folder ("parameters.pkl") ≠ pathJoin folder ("weights.h5") := by
  intro h
  have h2 : ("parameters.pkl" : String) = "weights.h5" := by
    injection h with h1 h3
    injection h3 with h4 h5
  exact absurd h2 (by decide)

theorem save_files (st : AEState) (folder : String) (fs : FS) :
    (save st folder fs).files =
      setFile
        (setFile fs.files (pathJoin folder ("parameters.pkl"))
          (FileData.paramsF (parametersList st.hp)))
        (pathJoin folder ("weights.h5")) (FileData.weightsF st.weights) := by
  unfold save saveWeights saveParameters createFolderIfNotExists
  split <;> rfl

theorem save_dirs (st : AEState) (folder : String) (fs : FS) :
    (save st folder fs).dirs =
      if folder ∈ fs.dirs then fs.dirs else fs.dirs ++ [folder] := by
  unfold save saveWeights saveParameters createFolderIfNotExists
  split <;> rfl

theorem addDecoderOutput_appends (hp : HP) (acc r : List Layer × Tri)
    (h : addDecoderOutput hp acc = Except.ok r) : ∃ t, r.1 = acc.1 ++ t := by
  unfold addDecoderOutput at h
  cases hk : pyGet hp.conv_kernels 0 with
  | error j => rw [hk] at h; cases h
  | ok k =>
    rw [hk] at h
    cases hs : pyGet hp.conv_strides 0 with
    | error j => rw [hs] at h; cases h
    | ok s =>
      rw [hs] at h
      cases h
      exact ⟨_, rfl⟩

theorem decChain_eq_flatMap (hp : HP) (m : Nat) :
    decChain hp m = ((List.range m).reverse).flatMap (convTBlock hp) := by
  induction m with
  | zero => rfl
  | succ m ih =>
    have hrev : (List.range (m + 1)).reverse = m :: (List.range m).reverse := by
      rw [List.range_succ, List.reverse_append]
      rfl
    rw [hrev, List.flatMap_cons, ← ih]
    rfl

theorem getD_eq_of_take_eq {l1 l2 : List Nat} {n i : Nat} (hi : i < n)
    (h : l1.take n = l2.take n) : l1.getD i 0 = l2.getD i 0 := by
  rw [List.getD_eq_getElem?_getD, List.getD_eq_getElem?_getD]
  have h1 : l1[i]? = (l1.take n)[i]? := by rw [List.getElem?_take, if_pos hi]
  have h2 : l2[i]? = (l2.take n)[i]? := by rw [List.getElem?_take, if_pos hi]
  rw [h1, h2, h]

/-!
Dataset loader of src/train.py.  Pixels are modelled as naturals in 0..255
and normalized pixels as rationals; load_mnist normalizes and reshapes both
image partitions and returns the label vectors untouched.
-/

/-- The labelled image dataset returned by mnist.load_data(). -/
structure Dataset where
  xTrain : List (List (List Nat))
  yTrain : List Nat
  xTest : List (List (List Nat))
  yTest : List Nat
deriving DecidableEq, Repr

/-- Per-image effect of astype float32, division by 255 and the reshape that
appends a trailing channel dimension of size one. -/
def normImage (img : List (List Nat)) : List (List (List ℚ)) :=
  img.map (fun row => row.map (fun (p : Nat) => [(p : ℚ) / 255]))

/-- load_mnist in src/train.py: normalize and reshape x_train and x_test and
return all four components, labels included. -/
def load_mnist (d : Dataset) :
    List (List (List (List ℚ))) × List Nat × List (List (List (List ℚ))) × List Nat :=
  (d.xTrain.map normImage, d.yTrain, d.xTest.map normImage, d.yTest)

/-- The destructuring in the train.py entry point, which keeps only the
first component of the tuple returned by load_mnist. -/
def mainTrainImages (d : Dataset) : List (List (List (List ℚ))) :=
  (load_mnist d).1

/-- The Keras sigmoid applied elementwise by the final Activation layer. -/
noncomputable def sigmoid (x : ℝ) : ℝ := 1 / (1 + Real.exp (-x))

theorem sigmoid_nonneg (x : ℝ) : 0 ≤ sigmoid x := by
  unfold sigmoid
  positivity

theorem sigmoid_le_one (x : ℝ) : sigmoid x ≤ 1 := by
  unfold sigmoid
  have hpos : (0 : ℝ) < 1 + Real.exp (-x) := by positivity
  rw [div_le_one hpos]
  linarith [Real.exp_pos (-x)]

/-!
Claim theorems.
-/

/-- Hyperparameters used to refute claim C1: one layer of stride 2. -/
def hpC1 : HP := HP.mk (28, 28, 1) [4] [3] [2] 2

/-- Hyperparameters of the end-to-end scenario in the spec and train.py. -/
def hpA : HP := HP.mk (28, 28, 1) [32, 64, 64, 64] [3, 3, 3, 3] [1, 2, 2, 1] 2

/-- Claim C1 as stated is false: for the valid hyperparameter set hpC1, with
equal-length per-layer sequences, the encoder does output a vector of the
configured bottleneck dimensionality, but the decoder output spatial shape
is 56 by 56 rather than the 28 by 28 of the input shape, because the extra
output transposed convolution applies stride conv_strides[0] = 2 once more. -/
theorem c1_counterexample :
    hpC1.conv_kernels.length = hpC1.conv_filters.length ∧
    hpC1.conv_strides.length = hpC1.conv_filters.length ∧
    hpC1.input_shape = (28, 28, 1) ∧
    (build hpC1).map (fun r => (r.1.outDim, r.2.outShape)) =
      Except.ok (2, (56, 56, 1)) ∧
    (56, 56) ≠ (28, 28) :=
  ⟨rfl, rfl, rfl, rfl, by decide⟩

/-- Claim C1, amended: for a valid hyperparameter set whose per-layer
sequences have equal positive length, whose strides are positive, whose
first stride is 1, and whose strides divide the spatial dimensions exactly
at every step, the built encoder outputs a vector of dimensionality
latent_space_dim and the decoder output spatial shape equals the input
spatial shape. -/
theorem c1_encoder_latent_decoder_spatial (hp : HP)
    (hk : hp.conv_kernels.length = hp.conv_filters.length)
    (hs : hp.conv_strides.length = hp.conv_filters.length)
    (hn : 1 ≤ hp.conv_filters.length)
    (hpos : ∀ x ∈ hp.conv_strides, 0 < x)
    (hs0 : hp.conv_strides.getD 0 0 = 1)
    (hex1 : exactDownB hp.input_shape.1 hp.conv_strides = true)
    (hex2 : exactDownB hp.input_shape.2.1 hp.conv_strides = true) :
    (build hp).map (fun r => (r.1.outDim, r.2.outShape.1, r.2.outShape.2.1)) =
      Except.ok (hp.latent_space_dim, hp.input_shape.1, hp.input_shape.2.1) := by
  have hnk : hp.conv_filters.length ≤ hp.conv_kernels.length := le_of_eq hk.symm
  have hns : hp.conv_filters.length ≤ hp.conv_strides.length := le_of_eq hs.symm
  have hk0 : 0 < hp.conv_kernels.length := by omega
  have hs0len : 0 < hp.conv_strides.length := by omega
  rw [build_eq hp hnk hns hk0 hs0len]
  have htake : hp.conv_strides.take hp.conv_filters.length = hp.conv_strides := by
    rw [← hs]
    exact List.take_length _
  obtain ⟨he1, he2⟩ := encShapeN_spatial hp hp.conv_filters.length hns
  obtain ⟨hd1, hd2⟩ := decShapeAcc_spatial hp hp.conv_filters.length (shapeBBSpec hp) hns
  have hout1 : (decSpec hp).outShape.1 = hp.input_shape.1 := by
    show (decShapeAcc hp hp.conv_filters.length (shapeBBSpec hp)).1 *
      hp.conv_strides.getD 0 0 = hp.input_shape.1
    rw [hs0, Nat.mul_one, hd1,
      show (shapeBBSpec hp).1 = (encShapeN hp hp.conv_filters.length).1 from rfl,
      he1, htake]
    exact exact_round hp.conv_strides hp.input_shape.1 hpos hex1
  have hout2 : (decSpec hp).outShape.2.1 = hp.input_shape.2.1 := by
    show (decShapeAcc hp hp.conv_filters.length (shapeBBSpec hp)).2.1 *
      hp.conv_strides.getD 0 0 = hp.input_shape.2.1
    rw [hs0, Nat.mul_one, hd2,
      show (shapeBBSpec hp).2.1 = (encShapeN hp hp.conv_filters.length).2.1 from rfl,
      he2, htake]
    exact exact_round hp.conv_strides hp.input_shape.2.1 hpos hex2
  show Except.ok ((encSpec hp).outDim, (decSpec hp).outShape.1, (decSpec hp).outShape.2.1) =
    Except.ok (hp.latent_space_dim, hp.input_shape.1, hp.input_shape.2.1)
  rw [hout1, hout2]
  rfl

/-- Witness for the amended claim C1 at the hyperparameters of train.py. -/
theorem c1_spatial_witness :
    (hpA.conv_kernels.length = hpA.conv_filters.length ∧
      hpA.conv_strides.length = hpA.conv_filters.length ∧
      1 ≤ hpA.conv_filters.length ∧
      (∀ x ∈ hpA.conv_strides, 0 < x) ∧
      hpA.conv_strides.getD 0 0 = 1 ∧
      exactDownB hpA.input_shape.1 hpA.conv_strides = true ∧
      exactDownB hpA.input_shape.2.1 hpA.conv_strides = true) ∧
    (build hpA).map (fun r => (r.1.outDim, r.2.outShape.1, r.2.outShape.2.1)) =
      Except.ok (hpA.latent_space_dim, hpA.input_shape.1, hpA.input_shape.2.1) :=
  ⟨⟨rfl, rfl, by decide, by decide, rfl, rfl, rfl⟩,
    c1_encoder_latent_decoder_spatial hpA rfl rfl (by decide) (by decide) rfl rfl rfl⟩

/-- Hyperparameters used to refute claim C3: conv_filters is the shortest
sequence, so nothing is ever misaligned during the loops. -/
def hpC3 : HP := HP.mk (28, 28, 1) [4] [3, 3] [1, 1] 2

/-- Hyperparameters witnessing the amended claim C3: kernels run out at
index 1 while two layers are requested. -/
def hpC3w : HP := HP.mk (28, 28, 1) [4, 4] [3] [1, 1] 2

/-- Claim C3 as stated is false: hpC3 has per-layer sequences of unequal
lengths 1, 2 and 2, yet construction succeeds, because only
len(conv_filters) indices are ever visited. -/
theorem c3_counterexample :
    (hpC3.conv_filters.length = 1 ∧ hpC3.conv_kernels.length = 2 ∧
      hpC3.conv_strides.length = 2) ∧
    (build hpC3).toOption.isSome = true :=
  ⟨⟨rfl, rfl, rfl⟩, rfl⟩

/-- Claim C3, amended: when conv_kernels or conv_strides is shorter than
conv_filters, construction fails with an IndexError at the first misaligned
layer index, namely the smaller of the two lengths; when conv_filters is
the shortest sequence the loops ignore the extra entries and succeed. -/
theorem c3_misaligned_fails_first_index (hp : HP)
    (h : Nat.min hp.conv_kernels.length hp.conv_strides.length <
      hp.conv_filters.length) :
    build hp =
      Except.error (Nat.min hp.conv_kernels.length hp.conv_strides.length) :=
  build_err hp h

/-- Witness for the amended claim C3. -/
theorem c3_fail_witness :
    Nat.min hpC3w.conv_kernels.length hpC3w.conv_strides.length <
      hpC3w.conv_filters.length ∧
    build hpC3w = Except.error 1 :=
  ⟨by decide, c3_misaligned_fails_first_index hpC3w (by decide)⟩

/-- Claim C4: _save_parameters writes the ordered list of exactly five
values input shape, filter counts, kernel sizes, strides and bottleneck
dimensionality, and Autoencoder.load passes these positionally to the
constructor, reconstructing the same five hyperparameter values. -/
theorem c4_parameters_order_roundtrip (hp : HP) :
    parametersList hp =
      [PValue.shapeV hp.input_shape, PValue.natsV hp.conv_filters,
        PValue.natsV hp.conv_kernels, PValue.natsV hp.conv_strides,
        PValue.natV hp.latent_space_dim] ∧
    ctorFromParams (parametersList hp) = some hp :=
  ⟨rfl, rfl⟩

/-- Claim C2: after save, load on the same folder reconstructs an instance
with identical hyperparameters and identical weights; since the architecture
is rebuilt deterministically from those hyperparameters and the weights are
equal, the reloaded model computes exactly what the original computes on any
input, which the theorem expresses by returning the saved state itself. -/
theorem c2_load_after_save_roundtrip (st : AEState) (b : EncoderB × DecoderB)
    (folder : String) (fs : FS)
    (hb : build st.hp = Except.ok b) (hw : st.weights.arch = modelArch b) :
    load folder (save st folder fs) = some st := by
  have hfiles := save_files st folder fs
  have hne : pathJoin folder ("weights.h5") ≠ pathJoin folder ("parameters.pkl") :=
    (paths_ne folder).symm
  unfold load
  rw [hfiles, getFile_setFile_ne _ _ _ _ hne, getFile_setFile_same,
    getFile_setFile_same]
  simp [parametersList, ctorFromParams, hb, hw]

/-- Small hyperparameter set used by several witnesses. -/
def hpW : HP := HP.mk (2, 2, 1) [3] [5] [1] 4

/-- The architecture built from hpW. -/
def bW : EncoderB × DecoderB := (encSpec hpW, decSpec hpW)

/-- A trained state over hpW whose weights match its architecture. -/
def stW : AEState := AEState.mk hpW (Weights.mk (modelArch bW) [0, 1])

/-- The empty file system. -/
def fsE : FS := FS.mk [] []

/-- Witness for claim C2. -/
theorem c2_roundtrip_witness :
    build stW.hp = Except.ok bW ∧ stW.weights.arch = modelArch bW ∧
    load ("model") (save stW ("model") fsE) = some stW :=
  ⟨rfl, rfl, c2_load_after_save_roundtrip stW bW ("model") fsE rfl rfl⟩

/-- Claim C5: the decoder is a dense layer, a reshape to the cached shape,
one transposed-convolution block per layer index in reverse order, a final
single-filter transposed convolution at the kernel and stride of the first layer,
and a sigmoid activation; the sigmoid maps every real into [0, 1], and the
decoder output has a single channel. -/
theorem c5_decoder_structure_sigmoid (hp : HP)
    (hk : hp.conv_filters.length ≤ hp.conv_kernels.length)
    (hs : hp.conv_filters.length ≤ hp.conv_strides.length)
    (hn : 1 ≤ hp.conv_filters.length) :
    (build hp).map (fun r => r.2.layers) =
      Except.ok
        ([Layer.dense (prodT (shapeBBSpec hp)) ("decoder_dense"),
          Layer.reshape (shapeBBSpec hp)] ++
          (List.range hp.conv_filters.length).reverse.flatMap (convTBlock hp) ++
          [Layer.conv2dT 1 (hp.conv_kernels.getD 0 0) (hp.conv_strides.getD 0 0)
             ("decoder_conv_transpose_layer_" ++ toString hp.conv_filters.length),
           Layer.activation ("sigmoid") ("sigmoid_layer")]) ∧
    (build hp).map (fun r => r.2.outShape.2.2) = Except.ok 1 ∧
    (∀ x : ℝ, 0 ≤ sigmoid x ∧ sigmoid x ≤ 1) := by
  have hk0 : 0 < hp.conv_kernels.length := by omega
  have hs0 : 0 < hp.conv_strides.length := by omega
  refine ⟨?_, ?_, fun x => ⟨sigmoid_nonneg x, sigmoid_le_one x⟩⟩
  · rw [build_eq hp hk hs hk0 hs0]
    show Except.ok (decSpec hp).layers = _
    simp only [decSpec, decSpecLayers, outConvT, decChain_eq_flatMap]
  · rw [build_eq hp hk hs hk0 hs0]
    rfl

/-- Witness for claim C5 at the hyperparameters of train.py. -/
theorem c5_structure_witness :
    (hpA.conv_filters.length ≤ hpA.conv_kernels.length ∧
      hpA.conv_filters.length ≤ hpA.conv_strides.length ∧
      1 ≤ hpA.conv_filters.length) ∧
    ((build hpA).map (fun r => r.2.layers) =
      Except.ok
        ([Layer.dense (prodT (shapeBBSpec hpA)) ("decoder_dense"),
          Layer.reshape (shapeBBSpec hpA)] ++
          (List.range hpA.conv_filters.length).reverse.flatMap (convTBlock hpA) ++
          [Layer.conv2dT 1 (hpA.conv_kernels.getD 0 0) (hpA.conv_strides.getD 0 0)
             ("decoder_conv_transpose_layer_" ++ toString hpA.conv_filters.length),
           Layer.activation ("sigmoid") ("sigmoid_layer")]) ∧
      (build hpA).map (fun r => r.2.outShape.2.2) = Except.ok 1 ∧
      (∀ x : ℝ, 0 ≤ sigmoid x ∧ sigmoid x ≤ 1)) :=
  ⟨⟨by decide, by decide, by decide⟩,
    c5_decoder_structure_sigmoid hpA (by decide) (by decide) (by decide)⟩

theorem FS_eq (a b : FS) (h1 : a.dirs = b.dirs) (h2 : a.files = b.files) : a = b := by
  cases a
  cases b
  cases h1
  cases h2
  rfl

/-- Claim C6: save creates the folder if absent, writes exactly the two
deterministically named files parameters.pkl and weights.h5 inside it and
touches no other file; a second save into the same folder overwrites both
files and leaves the file system unchanged; and load consults exactly those
two paths, so it cannot distinguish file systems that agree on them. -/
theorem c6_save_frame_and_idempotence (st : AEState) (folder : String) (fs : FS)
    (p : List String) (fs2 : FS)
    (hq1 : p ≠ pathJoin folder ("parameters.pkl"))
    (hq2 : p ≠ pathJoin folder ("weights.h5"))
    (hag1 : getFile fs2.files (pathJoin folder ("parameters.pkl")) =
      getFile (save st folder fs).files (pathJoin folder ("parameters.pkl")))
    (hag2 : getFile fs2.files (pathJoin folder ("weights.h5")) =
      getFile (save st folder fs).files (pathJoin folder ("weights.h5"))) :
    folder ∈ (save st folder fs).dirs ∧
    getFile (save st folder fs).files (pathJoin folder ("parameters.pkl")) =
      some (FileData.paramsF (parametersList st.hp)) ∧
    getFile (save st folder fs).files (pathJoin folder ("weights.h5")) =
      some (FileData.weightsF st.weights) ∧
    getFile (save st folder fs).files p = getFile fs.files p ∧
    (∀ dd : String, dd ∈ (save st folder fs).dirs ↔ dd ∈ fs.dirs ∨ dd = folder) ∧
    save st folder (save st folder fs) = save st folder fs ∧
    load folder fs2 = load folder (save st folder fs) := by
  have hparams : getFile (save st folder fs).files (pathJoin folder ("parameters.pkl")) =
      some (FileData.paramsF (parametersList st.hp)) := by
    rw [save_files, getFile_setFile_ne _ _ _ _ (paths_ne folder).symm,
      getFile_setFile_same]
  have hweights : getFile (save st folder fs).files (pathJoin folder ("weights.h5")) =
      some (FileData.weightsF st.weights) := by
    rw [save_files, getFile_setFile_same]
  have hframe : getFile (save st folder fs).files p = getFile fs.files p := by
    rw [save_files, getFile_setFile_ne _ _ _ _ (Ne.symm hq2),
      getFile_setFile_ne _ _ _ _ (Ne.symm hq1)]
  have hdirs : ∀ dd : String,
      dd ∈ (save st folder fs).dirs ↔ dd ∈ fs.dirs ∨ dd = folder := by
    intro dd
    rw [save_dirs]
    by_cases hf : folder ∈ fs.dirs
    · rw [if_pos hf]
      constructor
      · exact Or.inl
      · rintro (h | h)
        · exact h
        · rw [h]
          exact hf
    · rw [if_neg hf, List.mem_append, List.mem_singleton]
  have hfolder : folder ∈ (save st folder fs).dirs := (hdirs folder).mpr (Or.inr rfl)
  have hidem : save st folder (save st folder fs) = save st folder fs := by
    apply FS_eq
    · rw [save_dirs st folder (save st folder fs), if_pos hfolder]
    · rw [save_files st folder (save st folder fs),
        setFile_already _ _ _ hparams, setFile_already _ _ _ hweights]
  have hload : load folder fs2 = load folder (save st folder fs) := by
    unfold load
    rw [hag1, hag2]
  exact ⟨hfolder, hparams, hweights, hframe, hdirs, hidem, hload⟩

/-- Witness for claim C6. -/
theorem c6_frame_witness :
    ((["other"] : List String) ≠ pathJoin ("model") ("parameters.pkl") ∧
      (["other"] : List String) ≠ pathJoin ("model") ("weights.h5")) ∧
    ("model" ∈ (save stW ("model") fsE).dirs ∧
      getFile (save stW ("model") fsE).files (pathJoin ("model") ("parameters.pkl")) =
        some (FileData.paramsF (parametersList stW.hp)) ∧
      getFile (save stW ("model") fsE).files (pathJoin ("model") ("weights.h5")) =
        some (FileData.weightsF stW.weights) ∧
      getFile (save stW ("model") fsE).files ["other"] = getFile fsE.files ["other"] ∧
      (∀ dd : String,
        dd ∈ (save stW ("model") fsE).dirs ↔ dd ∈ fsE.dirs ∨ dd = "model") ∧
      save stW ("model") (save stW ("model") fsE) = save stW ("model") fsE ∧
      load ("model") (save stW ("model") fsE) = load ("model") (save stW ("model") fsE)) :=
  ⟨⟨by decide, by decide⟩,
    c6_save_frame_and_idempotence stW ("model") fsE ["other"] (save stW ("model") fsE)
      (by decide) (by decide) rfl rfl⟩

/-- Two datasets that differ only in their training labels. -/
def ds1 : Dataset := Dataset.mk [] [0] [] []

/-- Companion dataset to ds1 with a different training label. -/
def ds2 : Dataset := Dataset.mk [] [1] [] []

/-- Claim C7 as stated is false: load_mnist does not discard the labels; its
output depends on them, because it returns y_train and y_test unchanged as
the second and fourth components.  The labels are discarded only by the
destructuring in the train.py entry point. -/
theorem c7_counterexample :
    ds1.xTrain = ds2.xTrain ∧ ds1.xTest = ds2.xTest ∧
    load_mnist ds1 ≠ load_mnist ds2 :=
  ⟨rfl, rfl, by decide⟩

/-- Claim C7, amended: load_mnist returns the label vectors unchanged rather
than discarding them (only the entry point destructuring drops them, so the
kept training images depend only on x_train), and it maps every pixel p of
both partitions to the singleton [p / 255], which lies in [0, 1] whenever
p is at most 255, thereby appending a trailing channel dimension of size 1
after float conversion and division by 255. -/
theorem c7_loader_normalizes_returns_labels (d d2 : Dataset) (p i r c : Nat)
    (hple : p ≤ 255) (himg : d.xTrain = d2.xTrain) :
    (load_mnist d).2.1 = d.yTrain ∧
    (load_mnist d).2.2.2 = d.yTest ∧
    mainTrainImages d = mainTrainImages d2 ∧
    ((load_mnist d).1.get? i).bind
        (fun im => (im.get? r).bind (fun row => row.get? c)) =
      ((d.xTrain.get? i).bind
          (fun im => (im.get? r).bind (fun row => row.get? c))).map
        (fun (q : Nat) => [(q : ℚ) / 255]) ∧
    ((load_mnist d).2.2.1.get? i).bind
        (fun im => (im.get? r).bind (fun row => row.get? c)) =
      ((d.xTest.get? i).bind
          (fun im => (im.get? r).bind (fun row => row.get? c))).map
        (fun (q : Nat) => [(q : ℚ) / 255]) ∧
    0 ≤ (p : ℚ) / 255 ∧ (p : ℚ) / 255 ≤ 1 := by
  have hidx : ∀ xs : List (List (List Nat)),
      ((xs.map normImage).get? i).bind
          (fun im => (im.get? r).bind (fun row => row.get? c)) =
        ((xs.get? i).bind
            (fun im => (im.get? r).bind (fun row => row.get? c))).map
          (fun (q : Nat) => [(q : ℚ) / 255]) := by
    intro xs
    rw [List.get?_map]
    cases hi : xs.get? i with
    | none => rfl
    | some im =>
      show ((normImage im).get? r).bind (fun row => row.get? c) =
        ((im.get? r).bind (fun row => row.get? c)).map (fun (q : Nat) => [(q : ℚ) / 255])
      simp only [normImage]
      rw [List.get?_map]
      cases hr : im.get? r with
      | none => rfl
      | some row =>
        simp only [Option.map_some', Option.some_bind, List.get?_map]
  refine ⟨rfl, rfl, ?_, hidx d.xTrain, hidx d.xTest, by positivity, ?_⟩
  · show (d.xTrain.map normImage) = (d2.xTrain.map normImage)
    rw [himg]
  · rw [div_le_one (by norm_num : (0 : ℚ) < 255)]
    exact_mod_cast hple

/-- Witness for the amended claim C7. -/
theorem c7_loader_witness :
    ((128 : Nat) ≤ 255 ∧ ds1.xTrain = ds2.xTrain) ∧
    ((load_mnist ds1).2.1 = ds1.yTrain ∧
      (load_mnist ds1).2.2.2 = ds1.yTest ∧
      mainTrainImages ds1 = mainTrainImages ds2 ∧
      ((load_mnist ds1).1.get? 0).bind
          (fun im => (im.get? 0).bind (fun row => row.get? 0)) =
        ((ds1.xTrain.get? 0).bind
            (fun im => (im.get? 0).bind (fun row => row.get? 0))).map
          (fun (q : Nat) => [(q : ℚ) / 255]) ∧
      ((load_mnist ds1).2.2.1.get? 0).bind
          (fun im => (im.get? 0).bind (fun row => row.get? 0)) =
        ((ds1.xTest.get? 0).bind
            (fun im => (im.get? 0).bind (fun row => row.get? 0))).map
          (fun (q : Nat) => [(q : ℚ) / 255]) ∧
      0 ≤ ((128 : Nat) : ℚ) / 255 ∧ ((128 : Nat) : ℚ) / 255 ≤ 1) :=
  ⟨⟨by decide, rfl⟩,
    c7_loader_normalizes_returns_labels ds1 ds2 128 0 0 0 (by decide) rfl⟩

/-- Claim C8: the decoder of a constructed Autoencoder contains one
transposed convolution per layer index plus the output layer, so n + 1 in
total; with padding same its total upsampling factor is the product of all
strides times conv_strides[0] once more, while the encoder downsampling
factor is only the product of all strides, and for positive strides the two
factors coincide exactly when conv_strides[0] equals 1. -/
theorem c8_transpose_count_and_factors (hp : HP) (s0 : Nat) (ss : List Nat)
    (hss : hp.conv_strides = s0 :: ss)
    (hk : hp.conv_kernels.length = hp.conv_filters.length)
    (hsl : hp.conv_strides.length = hp.conv_filters.length)
    (hpos : ∀ x ∈ hp.conv_strides, 0 < x) :
    (build hp).map
        (fun r => (r.2.layers.countP isConvT, convTStrideProd r.2.layers,
          convStrideProd r.1.layers)) =
      Except.ok (hp.conv_filters.length + 1, hp.conv_strides.prod * s0,
        hp.conv_strides.prod) ∧
    (hp.conv_strides.prod * s0 = hp.conv_strides.prod ↔ s0 = 1) := by
  have hslen : 0 < hp.conv_strides.length := by
    rw [hss]
    exact Nat.succ_pos _
  have hn : 1 ≤ hp.conv_filters.length := by omega
  have hnk : hp.conv_filters.length ≤ hp.conv_kernels.length := by omega
  have hns : hp.conv_filters.length ≤ hp.conv_strides.length := by omega
  have hk0 : 0 < hp.conv_kernels.length := by omega
  have htake : hp.conv_strides.take hp.conv_filters.length = hp.conv_strides := by
    rw [← hsl]
    exact List.take_length _
  have hgd : hp.conv_strides.getD 0 0 = s0 := by
    rw [hss]
    rfl
  constructor
  · rw [build_eq hp hnk hns hk0 hslen]
    have hcount : (decSpec hp).layers.countP isConvT = hp.conv_filters.length + 1 := by
      show (decSpecLayers hp (shapeBBSpec hp)).countP isConvT = _
      simp only [decSpecLayers]
      rw [List.countP_append, List.countP_append, decChain_count]
      simp [List.countP_cons, isConvT, outConvT]
    have hup : convTStrideProd (decSpec hp).layers = hp.conv_strides.prod * s0 := by
      show convTStrideProd (decSpecLayers hp (shapeBBSpec hp)) = _
      simp only [decSpecLayers]
      rw [convTStrideProd_append, convTStrideProd_append,
        decChain_strideProd hp _ hns, htake]
      have h1 : convTStrideProd [Layer.dense (prodT (shapeBBSpec hp)) ("decoder_dense"),
          Layer.reshape (shapeBBSpec hp)] = 1 := rfl
      have h2 : convTStrideProd [outConvT hp,
          Layer.activation ("sigmoid") ("sigmoid_layer")] =
          hp.conv_strides.getD 0 0 * 1 := rfl
      rw [h1, h2, hgd]
      ring
    have hdown : convStrideProd (encSpec hp).layers = hp.conv_strides.prod := by
      show convStrideProd (encChain hp hp.conv_filters.length ++
        [Layer.flatten, Layer.dense hp.latent_space_dim ("encoder_output")]) = _
      rw [convStrideProd_append, encChain_strideProd hp _ hns, htake]
      simp [convStrideProd]
    show Except.ok ((decSpec hp).layers.countP isConvT, convTStrideProd (decSpec hp).layers,
      convStrideProd (encSpec hp).layers) = _
    rw [hcount, hup, hdown]
  · have hprodpos : 0 < hp.conv_strides.prod := List.prod_pos hpos
    constructor
    · intro h
      exact Nat.eq_of_mul_eq_mul_left hprodpos (by rw [Nat.mul_one]; exact h)
    · intro h
      rw [h, Nat.mul_one]

/-- Witness for claim C8 at the hyperparameters of train.py. -/
theorem c8_factors_witness :
    (hpA.conv_strides = 1 :: [2, 2, 1] ∧
      hpA.conv_kernels.length = hpA.conv_filters.length ∧
      hpA.conv_strides.length = hpA.conv_filters.length ∧
      ∀ x ∈ hpA.conv_strides, 0 < x) ∧
    ((build hpA).map
        (fun r => (r.2.layers.countP isConvT, convTStrideProd r.2.layers,
          convStrideProd r.1.layers)) =
      Except.ok (hpA.conv_filters.length + 1, hpA.conv_strides.prod * 1,
        hpA.conv_strides.prod) ∧
      (hpA.conv_strides.prod * 1 = hpA.conv_strides.prod ↔ (1 : Nat) = 1)) :=
  ⟨⟨rfl, rfl, rfl, by decide⟩,
    c8_transpose_count_and_factors hpA 1 [2, 2, 1] rfl rfl rfl (by decide)⟩

theorem convBlock_congr (hp : HP) (k2 s2 : List Nat) (i : Nat)
    (hi : i < hp.conv_filters.length)
    (hkt : k2.take hp.conv_filters.length = hp.conv_kernels.take hp.conv_filters.length)
    (hst : s2.take hp.conv_filters.length = hp.conv_strides.take hp.conv_filters.length) :
    convBlock (HP.mk hp.input_shape hp.conv_filters k2 s2 hp.latent_space_dim) i =
      convBlock hp i := by
  simp only [convBlock]
  rw [getD_eq_of_take_eq hi hkt, getD_eq_of_take_eq hi hst]

theorem convTBlock_congr (hp : HP) (k2 s2 : List Nat) (i : Nat)
    (hi : i < hp.conv_filters.length)
    (hkt : k2.take hp.conv_filters.length = hp.conv_kernels.take hp.conv_filters.length)
    (hst : s2.take hp.conv_filters.length = hp.conv_strides.take hp.conv_filters.length) :
    convTBlock (HP.mk hp.input_shape hp.conv_filters k2 s2 hp.latent_space_dim) i =
      convTBlock hp i := by
  simp only [convTBlock]
  rw [getD_eq_of_take_eq hi hkt, getD_eq_of_take_eq hi hst]

theorem encChain_congr (hp : HP) (k2 s2 : List Nat) (m : Nat)
    (hm : m ≤ hp.conv_filters.length)
    (hkt : k2.take hp.conv_filters.length = hp.conv_kernels.take hp.conv_filters.length)
    (hst : s2.take hp.conv_filters.length = hp.conv_strides.take hp.conv_filters.length) :
    encChain (HP.mk hp.input_shape hp.conv_filters k2 s2 hp.latent_space_dim) m =
      encChain hp m := by
  induction m with
  | zero => rfl
  | succ m ih =>
    simp only [encChain]
    rw [ih (Nat.le_of_succ_le hm),
      convBlock_congr hp k2 s2 m (Nat.lt_of_succ_le hm) hkt hst]

theorem decChain_congr (hp : HP) (k2 s2 : List Nat) (m : Nat)
    (hm : m ≤ hp.conv_filters.length)
    (hkt : k2.take hp.conv_filters.length = hp.conv_kernels.take hp.conv_filters.length)
    (hst : s2.take hp.conv_filters.length = hp.conv_strides.take hp.conv_filters.length) :
    decChain (HP.mk hp.input_shape hp.conv_filters k2 s2 hp.latent_space_dim) m =
      decChain hp m := by
  induction m with
  | zero => rfl
  | succ m ih =>
    simp only [decChain]
    rw [ih (Nat.le_of_succ_le hm),
      convTBlock_congr hp k2 s2 m (Nat.lt_of_succ_le hm) hkt hst]

theorem encShapeN_congr (hp : HP) (k2 s2 : List Nat) (m : Nat)
    (hm : m ≤ hp.conv_filters.length)
    (hst : s2.take hp.conv_filters.length = hp.conv_strides.take hp.conv_filters.length) :
    encShapeN (HP.mk hp.input_shape hp.conv_filters k2 s2 hp.latent_space_dim) m =
      encShapeN hp m := by
  induction m with
  | zero => rfl
  | succ m ih =>
    simp only [encShapeN]
    rw [ih (Nat.le_of_succ_le hm),
      getD_eq_of_take_eq (Nat.lt_of_succ_le hm) hst]

theorem decShapeAcc_congr (hp : HP) (k2 s2 : List Nat) (m : Nat)
    (hm : m ≤ hp.conv_filters.length)
    (hst : s2.take hp.conv_filters.length = hp.conv_strides.take hp.conv_filters.length) :
    ∀ sh : Tri,
      decShapeAcc (HP.mk hp.input_shape hp.conv_filters k2 s2 hp.latent_space_dim) m sh =
        decShapeAcc hp m sh := by
  induction m with
  | zero => intro sh; rfl
  | succ m ih =>
    intro sh
    simp only [decShapeAcc]
    rw [getD_eq_of_take_eq (Nat.lt_of_succ_le hm) hst,
      ih (Nat.le_of_succ_le hm)]

/-- The all-empty hyperparameter set used to refute claim C9. -/
def hpC9e : HP := HP.mk (28, 28, 1) [] [] [] 2

/-- Claim C9 as stated is false at the zero-layer boundary: with all three
sequences empty, conv_kernels and conv_strides are at least as long as
conv_filters, yet construction fails with an IndexError at index 0, because
_add_decoder_output always reads conv_kernels[0]. -/
theorem c9_counterexample :
    hpC9e.conv_filters.length ≤ hpC9e.conv_kernels.length ∧
    hpC9e.conv_filters.length ≤ hpC9e.conv_strides.length ∧
    build hpC9e = Except.error 0 :=
  ⟨le_rfl, le_rfl, rfl⟩

/-- Claim C9, amended: for at least one conv layer, whenever conv_kernels
and conv_strides are at least as long as conv_filters, construction
succeeds, and replacing them by any other sequences that are at least as
long and agree on the first len(conv_filters) entries leaves the built
model unchanged: entries beyond index len(conv_filters) - 1 are silently
ignored, never rejected. -/
theorem c9_extra_entries_ignored (hp : HP) (k2 s2 : List Nat)
    (hn : 1 ≤ hp.conv_filters.length)
    (hk : hp.conv_filters.length ≤ hp.conv_kernels.length)
    (hs : hp.conv_filters.length ≤ hp.conv_strides.length)
    (hk2 : hp.conv_filters.length ≤ k2.length)
    (hs2 : hp.conv_filters.length ≤ s2.length)
    (hkt : k2.take hp.conv_filters.length = hp.conv_kernels.take hp.conv_filters.length)
    (hst : s2.take hp.conv_filters.length = hp.conv_strides.take hp.conv_filters.length) :
    (build hp).toOption.isSome = true ∧
    build (HP.mk hp.input_shape hp.conv_filters k2 s2 hp.latent_space_dim) =
      build hp := by
  have hbuild1 := build_eq hp hk hs (by omega) (by omega)
  have hbuild2 := build_eq (HP.mk hp.input_shape hp.conv_filters k2 s2 hp.latent_space_dim)
    hk2 hs2 (show 0 < k2.length by omega) (show 0 < s2.length by omega)
  have h0 : (0 : Nat) < hp.conv_filters.length := hn
  have hec := encChain_congr hp k2 s2 hp.conv_filters.length le_rfl hkt hst
  have hes := encShapeN_congr hp k2 s2 hp.conv_filters.length le_rfl hst
  have hdc := decChain_congr hp k2 s2 hp.conv_filters.length le_rfl hkt hst
  have hgk := getD_eq_of_take_eq h0 hkt
  have hgs := getD_eq_of_take_eq h0 hst
  have hda := decShapeAcc_congr hp k2 s2 hp.conv_filters.length le_rfl hst
  constructor
  · rw [hbuild1]
    rfl
  · rw [hbuild1, hbuild2]
    unfold encSpec decSpec decSpecLayers outConvT shapeBBSpec
    dsimp only
    rw [hec, hes, hdc, hgk, hgs, hda]

/-- Hyperparameters for the C9 witness: kernels and strides one entry
longer than conv_filters. -/
def hp9 : HP := HP.mk (2, 2, 1) [3] [5, 9] [1, 7] 4

/-- Witness for the amended claim C9: replacing the unused second entries
of the kernel and stride sequences changes nothing. -/
theorem c9_ignored_witness :
    (1 ≤ hp9.conv_filters.length ∧
      hp9.conv_filters.length ≤ hp9.conv_kernels.length ∧
      hp9.conv_filters.length ≤ hp9.conv_strides.length ∧
      hp9.conv_filters.length ≤ ([5, 1] : List Nat).length ∧
      hp9.conv_filters.length ≤ ([1, 2] : List Nat).length ∧
      ([5, 1] : List Nat).take hp9.conv_filters.length =
        hp9.conv_kernels.take hp9.conv_filters.length ∧
      ([1, 2] : List Nat).take hp9.conv_filters.length =
        hp9.conv_strides.take hp9.conv_filters.length) ∧
    ((build hp9).toOption.isSome = true ∧
      build (HP.mk hp9.input_shape hp9.conv_filters [5, 1] [1, 2]
          hp9.latent_space_dim) =
        build hp9) :=
  ⟨⟨by decide, by decide, by decide, by decide, by decide, by decide, by decide⟩,
    c9_extra_entries_ignored hp9 [5, 1] [1, 2] (by decide) (by decide) (by decide)
      (by decide) (by decide) (by decide) (by decide)⟩

/-- Claim C10: after a successful __init__ all five built fields are set,
the cached shape before the bottleneck is the encoder feature-map shape,
and the decoder starts with a dense layer whose width is the element
product of that cached shape followed by a reshape back to it. -/
theorem c10_init_complete_consistent (hp : HP) (st : PyAE) (e : EncoderB)
    (dm : DecoderB) (hinit : init hp = Except.ok st)
    (he : st.encoder = some e) (hd : st.decoder = some dm) :
    (st.encoder.isSome ∧ st.decoder.isSome ∧ st.model.isSome ∧
      st.shape_before_bottleneck.isSome ∧ st.model_input.isSome) ∧
    st.shape_before_bottleneck = some e.shapeBB ∧
    dm.layers.take 2 =
      [Layer.dense (prodT e.shapeBB) ("decoder_dense"),
        Layer.reshape e.shapeBB] := by
  unfold init at hinit
  cases hbe : buildEncoder hp with
  | error j => rw [hbe] at hinit; cases hinit
  | ok e1 =>
    rw [hbe] at hinit
    dsimp only at hinit
    cases hbd : buildDecoder hp e1.shapeBB with
    | error j => rw [hbd] at hinit; cases hinit
    | ok d1 =>
      rw [hbd] at hinit
      dsimp only at hinit
      cases hinit
      rw [Option.some_inj] at he hd
      subst he
      subst hd
      refine ⟨⟨rfl, rfl, rfl, rfl, rfl⟩, rfl, ?_⟩
      unfold buildDecoder at hbd
      cases hmid : addConvTransposeLayersAux hp (List.range hp.conv_filters.length).reverse
          ([Layer.dense (prodT e1.shapeBB) ("decoder_dense"),
            Layer.reshape e1.shapeBB], e1.shapeBB) with
      | error j => rw [hmid] at hbd; cases hbd
      | ok mid =>
        rw [hmid] at hbd
        dsimp only at hbd
        cases hout : addDecoderOutput hp mid with
        | error j => rw [hout] at hbd; cases hbd
        | ok fin =>
          rw [hout] at hbd
          cases hbd
          obtain ⟨t1, ht1⟩ := addConvTransposeLayersAux_appends hp
            (List.range hp.conv_filters.length).reverse _ _ hmid
          obtain ⟨t2, ht2⟩ := addDecoderOutput_appends hp mid fin hout
          show (fin.1 ++ [Layer.activation ("sigmoid") ("sigmoid_layer")]).take 2 = _
          rw [ht2, ht1]
          rfl

/-- The encoder built from hpW, written out. -/
def encW : EncoderB :=
  { layers :=
      [Layer.conv2d 3 5 1 ("encoder_conv_layer_1"),
       Layer.relu ("encoder_relu_1"),
       Layer.batchNorm ("encoder_bn_1"),
       Layer.flatten,
       Layer.dense 4 ("encoder_output")],
    shapeBB := (2, 2, 3),
    outDim := 4 }

/-- The decoder built from hpW, written out. -/
def decW : DecoderB :=
  { layers :=
      [Layer.dense 12 ("decoder_dense"),
       Layer.reshape (2, 2, 3),
       Layer.conv2dT 3 5 1 ("dcoder_conv_transpose_layer_1"),
       Layer.relu ("decoder_relu_1"),
       Layer.batchNorm ("decoder_bn_1"),
       Layer.conv2dT 1 5 1 ("decoder_conv_transpose_layer_1"),
       Layer.activation ("sigmoid") ("sigmoid_layer")],
    inDim := 4,
    outShape := (2, 2, 1) }

/-- The Python object produced by __init__ on hpW, written out. -/
def pyW : PyAE :=
  { input_shape := (2, 2, 1),
    conv_filters := [3],
    conv_kernels := [5],
    conv_strides := [1],
    latent_space_dim := 4,
    encoder := some encW,
    decoder := some decW,
    model := some (encW, decW),
    shape_before_bottleneck := some (2, 2, 3),
    model_input := some (2, 2, 1) }

/-- Witness for claim C10. -/
theorem c10_init_witness :
    init hpW = Except.ok pyW ∧ pyW.encoder = some encW ∧ pyW.decoder = some decW ∧
    ((pyW.encoder.isSome ∧ pyW.decoder.isSome ∧ pyW.model.isSome ∧
        pyW.shape_before_bottleneck.isSome ∧ pyW.model_input.isSome) ∧
      pyW.shape_before_bottleneck = some encW.shapeBB ∧
      decW.layers.take 2 =
        [Layer.dense (prodT encW.shapeBB) ("decoder_dense"),
          Layer.reshape encW.shapeBB]) :=
  ⟨rfl, rfl, rfl, c10_init_complete_consistent hpW pyW encW decW rfl rfl rfl⟩
